import Mathlib

/-!
Verification development for the grepc incremental occurrence tracking engine.

The definitions below are a shallow embedding of the TypeScript sources:
`DecorationTypeWrapper` (updateOccurrences, generateOccurrencesOnChange,
removeIntersectingOccurrences, applyDecorationsToEditor),
`DecorationTypeManager` (updateDecorations, isDecorationChangeInArray,
jumpToLine) and `RuleFactory` (addRule, pushOccurrences).

The vscode text model (Position, Range, TextDocument offsets) is embedded
directly; a compiled JavaScript RegExp is abstracted as the function that,
for a text and a start position, yields the length of the match the engine
produces there (none when it does not match at that position); `exec` with
the global flag is then the leftmost such position at or after `lastIndex`.
-/

set_option maxRecDepth 8000

namespace Grepc

/-- vscode Position: zero-based line and character. -/
structure Pos where
  line : Nat
  character : Nat
deriving DecidableEq, Repr

/-- vscode Position.isBefore: lexicographic order on (line, character). -/
def Pos.isBefore (a b : Pos) : Bool :=
  a.line < b.line || (a.line = b.line && a.character < b.character)

/-- vscode Position.isBeforeOrEqual. -/
def Pos.isBeforeOrEqual (a b : Pos) : Bool :=
  a.line < b.line || (a.line = b.line && a.character ≤ b.character)

def Pos.min (a b : Pos) : Pos := if a.isBeforeOrEqual b then a else b

def Pos.max (a b : Pos) : Pos := if a.isBeforeOrEqual b then b else a

/-- vscode Range. The end position is called `endPos` because `end` is a
reserved word in Lean; it is the exclusive end of the span. -/
structure Range where
  start : Pos
  endPos : Pos
deriving DecidableEq, Repr

/-- Constructor semantics of `new vscode.Range(a, b)`: normalizes so that start ≤ end. -/
def Range.mk' (a b : Pos) : Range :=
  if a.isBeforeOrEqual b then ⟨a, b⟩ else ⟨b, a⟩

/-- vscode Range.intersection: from the greater start to the smaller end;
undefined (none) when the ranges are disjoint.  Ranges that merely touch
intersect in an empty range, which is a truthy object in JavaScript. -/
def Range.intersection (a b : Range) : Option Range :=
  let s := Pos.max a.start b.start
  let e := Pos.min a.endPos b.endPos
  if s.isBeforeOrEqual e then some ⟨s, e⟩ else none

/-- vscode Range.union: smallest range containing both. -/
def Range.union (a b : Range) : Range :=
  ⟨Pos.min a.start b.start, Pos.max a.endPos b.endPos⟩

/-- The lines of a buffer, split at newline characters (vscode line model:
a trailing newline yields a final empty line). -/
def splitLines : List Char → List (List Char)
  | [] => [[]]
  | c :: rest =>
    if c = '\n' then [] :: splitLines rest
    else
      match splitLines rest with
      | [] => [[c]]
      | l :: ls => (c :: l) :: ls

/-- Helper for `offsetAt` over the line list: a line beyond the last clamps
to the end of the document, a character beyond the line length clamps to
the line length (vscode validatePosition). -/
def offsetAtAux : List (List Char) → Nat → Nat → Nat
  | [], _, _ => 0
  | l :: ls, line, ch =>
    if line = 0 then Nat.min ch l.length
    else
      match ls with
      | [] => l.length
      | _ :: _ => l.length + 1 + offsetAtAux ls (line - 1) ch

/-- vscode TextDocument.offsetAt (with position validation). -/
def offsetAt (t : List Char) (p : Pos) : Nat :=
  offsetAtAux (splitLines t) p.line p.character

/-- Helper for `positionAt` over the line list. -/
def positionAtAux : List (List Char) → Nat → Nat → Pos
  | [], line, _ => ⟨line, 0⟩
  | l :: ls, line, off =>
    match ls with
    | [] => ⟨line, Nat.min off l.length⟩
    | _ :: _ =>
      if off ≤ l.length then ⟨line, off⟩
      else positionAtAux ls (line + 1) (off - (l.length + 1))

/-- vscode TextDocument.positionAt (offset clamped to the text length). -/
def positionAt (t : List Char) (offset : Nat) : Pos :=
  positionAtAux (splitLines t) 0 (Nat.min offset t.length)

/-- vscode TextDocument.getText(range): the slice between the validated
offsets of the two endpoints. -/
def getTextInRange (t : List Char) (r : Range) : List Char :=
  let s := offsetAt t r.start
  let e := offsetAt t r.endPos
  (t.drop s).take (e - s)

/-- DecorationTypeWrapper.getFullLineRange: start of the range's first line
through the start of the line after its last line. -/
def getFullLineRange (r : Range) : Range :=
  Range.mk' ⟨r.start.line, 0⟩ ⟨r.endPos.line + 1, 0⟩

/-- A compiled regular expression, abstracted as the function giving, for a
text and a start position, the length of the match the engine produces at
that position (none when the regex does not match there). -/
def Matcher : Type := List Char → Nat → Option Nat

/-- The matcher of a regex that matches a literal string. An empty literal
matches the empty string at every position, like `new RegExp('')`. -/
def litMatch (pat : List Char) : Matcher := fun text i =>
  if i + pat.length ≤ text.length && (text.drop i).take pat.length == pat then
    some pat.length
  else none

/-- Leftmost match of a regex at a position at least `i`, by fuel (the fuel
`text.length + 1 - i` is exact, see `findFrom`). -/
def findFromFuel (m : Matcher) (text : List Char) : Nat → Nat → Option (Nat × Nat)
  | 0, _ => none
  | fuel + 1, i =>
    if i ≤ text.length then
      match m text i with
      | some len => some (i, len)
      | none => findFromFuel m text fuel (i + 1)
    else none

/-- Leftmost match `(index, length)` of the regex at a position ≥ i, or
none; this is the search a RegExp.exec call performs. -/
def findFrom (m : Matcher) (text : List Char) (i : Nat) : Option (Nat × Nat) :=
  findFromFuel m text (text.length + 1 - i) i

/-- One `regEx.exec(text)` call: returns (match.index, match length, new
lastIndex).  With the global flag the search starts at lastIndex `li` and
lastIndex becomes `index + length` (for a zero-width match this is the same
position again — the classic JavaScript stuck-cursor behavior); without the
global flag the search always starts at 0. -/
def execStep (m : Matcher) (text : List Char) (g : Bool) (li : Nat) : Option (Nat × Nat × Nat) :=
  match findFrom m text (if g then li else 0) with
  | none => none
  | some (i, len) => some (i, len, i + len)

/-- The shared shape of the three scan sites
(`while ((match = regEx.exec(text)) && COND) { push }`):
exec, then evaluate the loop condition `cond` on the current accumulated
count, then append.  `none` means the fuel ran out before the loop exited,
i.e. the loop has not terminated within `fuel` iterations. -/
def scanLoopFuel (m : Matcher) (text : List Char) (g : Bool) (cond : Nat → Bool) :
    Nat → Nat → List (Nat × Nat) → Option (List (Nat × Nat))
  | 0, _, _ => none
  | fuel + 1, li, acc =>
    match execStep m text g li with
    | none => some acc
    | some (i, len, li2) =>
      if cond acc.length then scanLoopFuel m text g cond fuel li2 (acc ++ [(i, len)])
      else some acc

/-- The Rule fields the engine reads (rule.ts): pattern, flags, filters,
cap, and the decoration attributes compared by isDecorationChangeInArray.
`maxOccurrences : Option Nat` models `number | null`;
`overviewRulerLane` is the numeric vscode enum. -/
structure Rule where
  id : String
  title : String := ""
  enabled : Bool := true
  regularExpression : String := ""
  regularExpressionFlags : String := ""
  includedFiles : String := ""
  excludedFiles : String := ""
  maxOccurrences : Option Nat := none
  backgroundColor : String := ""
  border : String := ""
  borderColor : String := ""
  borderWidth : String := ""
  color : String := ""
  cursor : String := ""
  fontStyle : String := ""
  fontWeight : String := ""
  isWholeLine : Bool := false
  outline : String := ""
  outlineColor : String := ""
  outlineWidth : String := ""
  overviewRulerColor : String := ""
  overviewRulerLane : Nat := 7
  textDecoration : String := ""
deriving DecidableEq, Repr

/-- Flags defaulting `rule.regularExpressionFlags || 'g'`: the empty flags
string is falsy and defaults to the global flag. -/
def flagsD (r : Rule) : String :=
  if r.regularExpressionFlags = "" then "g" else r.regularExpressionFlags

/-- Whether the compiled regex is global (the flags contain g). -/
def isGlobal (r : Rule) : Bool := (flagsD r).toList.contains 'g'

/-- The result record of removeIntersectingOccurrences
(intersectingRangeData), extended with the spliced occurrence list
(`newOccs`) to make the mutation of `this.activeOccurrences` explicit.
`decorationOptions` is spliced identically in the source, so its length
always equals `newOccs.length`. -/
structure IntersectingRangeData where
  removed : Nat
  range : Option Range
  insertIndex : Nat
  newOccs : List Range
deriving DecidableEq, Repr

/-- The padding at the top of removeIntersectingOccurrences: the start is
moved one character left only when its character offset is positive (never
across a line boundary) and the end is moved one character right with no
clamping to the buffer bounds. -/
def padCandidate (r : Range) : Range :=
  let newStart := if r.start.character > 0 then (⟨r.start.line, r.start.character - 1⟩ : Pos) else r.start
  let newEnd : Pos := ⟨r.endPos.line, r.endPos.character + 1⟩
  Range.mk' newStart newEnd

/-- The candidate span actually used to look up intersecting occurrences:
generateOccurrencesOnChange expands the edit range to full lines and
removeIntersectingOccurrences then pads it by one character. -/
def candidateSpan (r : Range) : Range := padCandidate (getFullLineRange r)

/-- The leftward walk-out loop of removeIntersectingOccurrences.  The first
argument is `left + 1` (so 0 plays the role of left = -1); the result is
the final `left + 1` together with the accumulated union range. -/
def goLeft (occs : List Range) (cc : Range) : Nat → Range → Nat × Range
  | 0, inter => (0, inter)
  | i + 1, inter =>
    match occs.get? i with
    | none => (i + 1, inter)
    | some r =>
      match cc.intersection r with
      | some ni => goLeft occs cc i (ni.union inter)
      | none => (i + 1, inter)

/-- The rightward walk-out loop of removeIntersectingOccurrences: returns
the final `right` together with the accumulated union range.  The fuel is
an upper bound on the remaining steps; out-of-bounds access stops the loop
exactly as in the source. -/
def goRight (occs : List Range) (cc : Range) : Nat → Nat → Range → Nat × Range
  | 0, j, inter => (j, inter)
  | fuel + 1, j, inter =>
    match occs.get? j with
    | none => (j, inter)
    | some r =>
      match cc.intersection r with
      | some ni => goRight occs cc fuel (j + 1) (ni.union inter)
      | none => (j, inter)

/-- The while loop of removeIntersectingOccurrences.  `left` and `right`
are the binary search bounds; the case `right = middle - 1 = -1` (only
possible when middle = 0) is the loop exit and is returned directly.  The
fuel `occs.length + 1` is an upper bound on the iteration count because the
width of `[left, right]` shrinks at every step. -/
def binSearchFuel (occs : List Range) (cc : Range) : Nat → Nat → Nat → IntersectingRangeData
  | 0, left, _ => ⟨0, none, left + 1, occs⟩
  | fuel + 1, left, right =>
    if left ≤ right then
      let middle := (left + right) / 2
      match occs.get? middle with
      | none => ⟨0, none, left + 1, occs⟩
      | some midRange =>
        match midRange.intersection cc with
        | some _ =>
          let inter0 := cc.union midRange
          let lres := goLeft occs cc middle inter0
          let rres := goRight occs cc occs.length (middle + 1) lres.2
          ⟨rres.1 - lres.1, some rres.2, lres.1, occs.take lres.1 ++ occs.drop rres.1⟩
        | none =>
          if midRange.start.isBeforeOrEqual cc.start then
            binSearchFuel occs cc fuel (middle + 1) right
          else if middle = 0 then ⟨0, none, left + 1, occs⟩
          else binSearchFuel occs cc fuel left (middle - 1)
    else ⟨0, none, left + 1, occs⟩

/-- DecorationTypeWrapper.removeIntersectingOccurrences: pad the content
change range, binary-search the sorted occurrence list for an intersecting
occurrence, walk outward over the contiguous intersecting run, splice it
out and return the union span with the insertion index.  When the list is
empty the JavaScript loop bounds are left = 0, right = -1, so the loop does
not run and insertIndex is left + 1 = 1. -/
def removeIntersectingOccurrences (occs : List Range) (contentChangeRange : Range) : IntersectingRangeData :=
  let cc := padCandidate contentChangeRange
  if occs.length = 0 then ⟨0, none, 1, occs⟩
  else binSearchFuel occs cc (occs.length + 1) 0 (occs.length - 1)

/-- JavaScript `array.splice(i, 0, x)`: insertion with the index clamped to
the array length. -/
def jsInsertAt (l : List Range) (i : Nat) (x : Range) : List Range :=
  l.take i ++ x :: l.drop i

/-- Outcome of generateOccurrencesOnChange: a thrown error, the scan loop
still running after `fuel` iterations, or the updated occurrence list. -/
inductive GenResult where
  | threw (msg : String)
  | fuelOut
  | ok (newOccs : List Range)
deriving DecidableEq, Repr

/-- DecorationTypeWrapper.generateOccurrencesOnChange.  `compile` abstracts
the JavaScript RegExp constructor (none = SyntaxError, which this method
does not catch).  The loop condition of the scan is
`this.decorationOptions.length < (this.rule.maxOccurrences ?? 1000)`:
`decorationOptions` was spliced in lockstep with `activeOccurrences` and is
not appended to inside this loop (the loop appends to `newDecorations`), so
the condition compares the constant post-splice store size against the cap. -/
def generateOccurrencesOnChange (compile : String → String → Option Matcher) (fuel : Nat)
    (docText : List Char) (rule : Rule) (occs : List Range) (ccRange : Range) : GenResult :=
  let ird := removeIntersectingOccurrences occs (getFullLineRange ccRange)
  if ird.removed > 0 && ird.range.isNone then
    .threw "Intersecting Range Data should contain a range if removed > 0."
  else
    let textRange := getFullLineRange (ird.range.getD ccRange)
    let text := getTextInRange docText textRange
    match compile rule.regularExpression (flagsD rule) with
    | none => .threw "SyntaxError: invalid regular expression"
    | some m =>
      let cap := rule.maxOccurrences.getD 1000
      match scanLoopFuel m text (isGlobal rule) (fun _ => decide (ird.newOccs.length < cap)) fuel 0 [] with
      | none => .fuelOut
      | some pairs =>
        let offset := offsetAt docText textRange.start
        let newRanges := pairs.map fun p =>
          Range.mk' (positionAt docText (offset + p.1)) (positionAt docText (offset + p.1 + p.2))
        .ok ((newRanges.enum).foldl (fun l pr => jsInsertAt l (ird.insertIndex + pr.1) pr.2) ird.newOccs)

/-- DecorationTypeWrapper.updateOccurrences (full rebuild): scan the whole
document, stopping once the growing decorations list reaches the cap.
none models the uncaught RegExp constructor throw.  The fuel `cap + 1`
always suffices because every iteration either exits or appends a match
(theorem `c10_amended` below), so the `getD []` default is unreachable. -/
def updateOccurrences (compile : String → String → Option Matcher)
    (docText : List Char) (rule : Rule) : Option (List Range) :=
  match compile rule.regularExpression (flagsD rule) with
  | none => none
  | some m =>
    let cap := rule.maxOccurrences.getD 1000
    let pairs := (scanLoopFuel m docText (isGlobal rule) (fun n => decide (n < cap)) (cap + 1) 0 []).getD []
    some (pairs.map fun p => Range.mk' (positionAt docText p.1) (positionAt docText (p.1 + p.2)))

/-- The active editor's document, as the manager sees it: a filesystem
path and the buffer text. -/
structure Document where
  fileName : String
  text : List Char
deriving DecidableEq, Repr

/-- One RuleFactory.pushOccurrences call, the Occurrence Publisher
boundary: the rule id, the occurrence ranges and the occurrence count.
The source serializes each vscode range into one LineRange before pushing
(toLineRanges is one-to-one), and pushes the literal empty list on every
error path; the claims only concern the list shape and the count, so the
event carries the ranges themselves. -/
structure PushEvent where
  ruleId : String
  ranges : List Range
  count : Nat
deriving DecidableEq, Repr

/-- JavaScript `regex.test(s)`: whether the regex matches anywhere. -/
def regexTest (m : Matcher) (s : String) : Bool := (findFrom m s.toList 0).isSome

/-- The try block of DecorationTypeManager.updateDecorations for one rule:
an empty pattern pushes zero occurrences; a pattern that fails to compile
is caught and pushes zero occurrences; otherwise the document is scanned
with the same capped loop as updateOccurrences and the ranges with their
count are pushed. -/
def processRulePattern (compile : String → String → Option Matcher) (doc : Document) (rule : Rule) : PushEvent :=
  if rule.regularExpression = "" then ⟨rule.id, [], 0⟩
  else
    match compile rule.regularExpression (flagsD rule) with
    | none => ⟨rule.id, [], 0⟩
    | some m =>
      let cap := rule.maxOccurrences.getD 1000
      let pairs := (scanLoopFuel m doc.text (isGlobal rule) (fun n => decide (n < cap)) (cap + 1) 0 []).getD []
      let ranges := pairs.map fun p => Range.mk' (positionAt doc.text p.1) (positionAt doc.text (p.1 + p.2))
      ⟨rule.id, ranges, ranges.length⟩

/-- The includedFiles filter step of updateDecorations.  The RegExp
constructor for the filter runs outside the try block, so a filter that
fails to compile throws out of updateDecorations (.error). -/
def processRuleIncluded (compile : String → String → Option Matcher) (doc : Document) (rule : Rule) :
    Except String PushEvent :=
  if rule.includedFiles ≠ "" then
    match compile rule.includedFiles "" with
    | none => .error "SyntaxError: invalid regular expression (includedFiles)"
    | some m =>
      if !(regexTest m doc.fileName) then .ok ⟨rule.id, [], 0⟩
      else .ok (processRulePattern compile doc rule)
  else .ok (processRulePattern compile doc rule)

/-- The per-rule body of the updateDecorations loop: excludedFiles filter,
then includedFiles filter, then the guarded pattern scan. -/
def processRule (compile : String → String → Option Matcher) (doc : Document) (rule : Rule) :
    Except String PushEvent :=
  if rule.excludedFiles ≠ "" then
    match compile rule.excludedFiles "" with
    | none => .error "SyntaxError: invalid regular expression (excludedFiles)"
    | some m =>
      if regexTest m doc.fileName then .ok ⟨rule.id, [], 0⟩
      else processRuleIncluded compile doc rule
  else processRuleIncluded compile doc rule

/-- The pushes emitted by updateDecorations and the error that escaped it,
if any.  Pushes made before a throw are kept, the rules after the throwing
rule are not processed. -/
structure MgrResult where
  pushes : List PushEvent
  error : Option String
deriving DecidableEq, Repr

/-- The `for (const rule of enabledRules)` loop of updateDecorations. -/
def processRules (compile : String → String → Option Matcher) (doc : Document) : List Rule → MgrResult
  | [] => ⟨[], none⟩
  | r :: rest =>
    match processRule compile doc r with
    | .error e => ⟨[], some e⟩
    | .ok ev =>
      let res := processRules compile doc rest
      ⟨ev :: res.pushes, res.error⟩

/-- DecorationTypeManager.updateDecorations: a locked factory skips the
update entirely (no pushes); a missing active editor pushes zero
occurrences for every rule; otherwise each enabled rule is processed in
order. -/
def updateDecorations (compile : String → String → Option Matcher) (locked : Bool)
    (activeEditorDoc : Option Document) (enabledRules : List Rule) : MgrResult :=
  if locked then ⟨[], none⟩
  else
    match activeEditorDoc with
    | none => ⟨enabledRules.map (fun r => ⟨r.id, [], 0⟩), none⟩
    | some doc => processRules compile doc enabledRules

/-- The field comparison block of isDecorationChangeInArray (the old rule
on the left, the current element on the right, exactly the fields compared
in the source). -/
def ruleFieldsDiffer (old current : Rule) : Bool :=
  old.backgroundColor != current.backgroundColor ||
  old.border != current.border ||
  old.borderColor != current.borderColor ||
  old.borderWidth != current.borderWidth ||
  old.color != current.color ||
  old.cursor != current.cursor ||
  old.excludedFiles != current.excludedFiles ||
  old.includedFiles != current.includedFiles ||
  old.fontStyle != current.fontStyle ||
  old.fontWeight != current.fontWeight ||
  old.isWholeLine != current.isWholeLine ||
  old.maxOccurrences != current.maxOccurrences ||
  old.outline != current.outline ||
  old.outlineColor != current.outlineColor ||
  old.outlineWidth != current.outlineWidth ||
  old.overviewRulerColor != current.overviewRulerColor ||
  old.overviewRulerLane != current.overviewRulerLane ||
  old.regularExpression != current.regularExpression ||
  old.regularExpressionFlags != current.regularExpressionFlags ||
  old.textDecoration != current.textDecoration ||
  old.title != current.title

/-- The indexed loop of isDecorationChangeInArray, as a pairwise walk (the
lists have equal length when it is reached; a missing old rule returns
true as `!matchingOldRule` does). -/
def pairDiff : List Rule → List Rule → Bool
  | [], _ => false
  | _ :: _, [] => true
  | e :: es, o :: os =>
    if e.id != o.id then true
    else if ruleFieldsDiffer o e then true
    else pairDiff es os

/-- DecorationTypeManager.isDecorationChangeInArray: true when the old
enabled list is absent, the lengths differ, any position changed id, or
any compared field differs. -/
def isDecorationChangeInArray (enabledRules : List Rule) (old : Option (List Rule)) : Bool :=
  match old with
  | none => true
  | some olds =>
    if enabledRules.length != olds.length then true
    else pairDiff enabledRules olds

/-- The $enabledRules subscription body in enableDecorationDetection: the
boolean is whether the clear-and-update branch ran, the second component
is the new `_factoryToOldEnabledRules` entry (always set to the delivered
list). -/
def handleEnabledRulesEvent (old : Option (List Rule)) (enabledRules : List Rule) :
    Bool × Option (List Rule) :=
  (isDecorationChangeInArray enabledRules old, some enabledRules)

/-- DecorationTypeManager.jumpToLine:
`this._ruleToActiveOccurrences.get(ruleId)?.[index]`, modelled on the map
as an association list.  none means the guard `if (range)` failed and no
action was taken. -/
def jumpToLine (ruleToActiveOccurrences : List (String × List Range)) (ruleId : String) (index : Nat) :
    Option Range :=
  match ruleToActiveOccurrences.lookup ruleId with
  | none => none
  | some rs => rs.get? index

/-- DecorationTypeWrapper.applyDecorationsToEditor: throws when the active
editor's document is not the wrapped document; only the guard is modelled
(setDecorations is rendering). -/
def applyDecorationsToEditor (wrapperFileName editorFileName : String) : Except String Unit :=
  if editorFileName ≠ wrapperFileName then
    .error "CANNOT APPLY DECORATIONS TO DIFFERENT DOCUMENT"
  else .ok ()

/-- RuleFactory.addRule: throws when the id is already in the rules map,
otherwise inserts the rule. -/
def addRule (rulesMap : List (String × Rule)) (rule : Rule) : Except String (List (String × Rule)) :=
  if (rulesMap.lookup rule.id).isSome then
    .error "Rule ID cannot be added to rule factory due to conflict."
  else .ok (rulesMap ++ [(rule.id, rule)])

/-- A demonstration regex engine for concrete inputs: the pattern string is
matched literally, and the single pattern string that is not a valid
regular expression is an unbalanced parenthesis. -/
def demoCompile : String → String → Option Matcher :=
  fun pat _flags => if pat = "(" then none else some (litMatch pat.toList)

/-- Whether a stored occurrence list satisfies the Interval Store
invariant: sorted by start and pairwise non-overlapping, i.e. each range
ends at or before the next one starts. -/
def sortedNonOverlap : List Range → Bool
  | [] => true
  | [_] => true
  | a :: b :: rest => a.endPos.isBeforeOrEqual b.start && sortedNonOverlap (b :: rest)

/-- Follows the spec's words (section 4.2 step 1): the candidate span is
the edit's old range in offset space expanded by one unit on each side,
clamped to the buffer bounds. -/
def specCandidateSpan (t : List Char) (r : Range) : Nat × Nat :=
  (offsetAt t r.start - 1, Nat.min (offsetAt t r.endPos + 1) t.length)

/-- The code's candidate span, mapped to offset space for comparison with
`specCandidateSpan`. -/
def candidateSpanOffsets (t : List Char) (r : Range) : Nat × Nat :=
  (offsetAt t (candidateSpan r).start, offsetAt t (candidateSpan r).endPos)

/-- The length of line `i` of a text (0 if there is no such line). -/
def lineLen (t : List Char) (i : Nat) : Nat :=
  (((splitLines t).get? i).getD []).length

/-- Whether both filename filters of a rule compile (the empty filter
string is falsy and is not compiled at all). -/
def filtersCompileB (compile : String → String → Option Matcher) (r : Rule) : Bool :=
  (r.excludedFiles == "" || (compile r.excludedFiles "").isSome) &&
  (r.includedFiles == "" || (compile r.includedFiles "").isSome)

/-- The length of the occurrence list of a successful generate outcome. -/
def GenResult.okLength : GenResult → Nat
  | .ok l => l.length
  | _ => 0

/-! ### Concrete instances used by the evaluation theorems -/

/-- A rule matching the literal pattern foo with default flags and cap. -/
def fooRule : Rule := { id := "r-foo", title := "foo", regularExpression := "foo" }

/-- Buffer with foo on line 0 and line 4 and three empty lines between. -/
def text0 : List Char := "foo\n\n\n\nfoo".toList

/-- The text `text0` after inserting foo at the start of line 2. -/
def text1 : List Char := "foo\n\nfoo\n\nfoo".toList

def occA : Range := ⟨⟨0, 0⟩, ⟨0, 3⟩⟩

def occB : Range := ⟨⟨4, 0⟩, ⟨4, 3⟩⟩

def occC : Range := ⟨⟨2, 0⟩, ⟨2, 3⟩⟩

/-- The store produced by a full rebuild of `text0`. -/
def store0 : List Range := (updateOccurrences demoCompile text0 fooRule).getD []

/-- The content change of inserting foo at position (2,0): the old range is
the empty range at the insertion point. -/
def edit1Range : Range := ⟨⟨2, 0⟩, ⟨2, 0⟩⟩

/-- Incremental update for the insertion, run against the new text. -/
def gen1 : GenResult := generateOccurrencesOnChange demoCompile 12 text1 fooRule store0 edit1Range

def store1 : List Range := match gen1 with | .ok l => l | _ => []

/-- The content change of deleting that same foo again: the old range is
the deleted span, the document is back to `text0`. -/
def edit2Range : Range := ⟨⟨2, 0⟩, ⟨2, 3⟩⟩

/-- Incremental update for the deletion: the edit sequence has now
transformed `text0` back into itself. -/
def gen2 : GenResult := generateOccurrencesOnChange demoCompile 12 text0 fooRule store1 edit2Range

/-- A rule matching the literal a with an occurrence cap of 2. -/
def aRule : Rule := { id := "r-a", title := "a", regularExpression := "a", maxOccurrences := some 2 }

def textA0 : List Char := "a a a".toList

/-- The text `textA0` after appending a fourth a. -/
def textA1 : List Char := "a a a a".toList

def storeA0 : List Range := (updateOccurrences demoCompile textA0 aRule).getD []

/-- The content change of inserting at the end of the line. -/
def editA : Range := ⟨⟨0, 5⟩, ⟨0, 5⟩⟩

def genA : GenResult := generateOccurrencesOnChange demoCompile 12 textA1 aRule storeA0 editA

/-- A rule whose pattern is the empty string: `new RegExp('')` matches the
empty string at every position. -/
def emptyPatRule : Rule := { id := "r-empty", title := "empty" }

def demoDoc : Document := ⟨"file.txt", "x".toList⟩

/-- A rule whose excludedFiles filter does not compile. -/
def rBadFilter : Rule := { id := "r-bf", excludedFiles := "(", regularExpression := "x" }

/-- A rule whose includedFiles filter does not compile (its excludedFiles
filter is empty, so the include filter is reached). -/
def rBadInclude : Rule := { id := "r-bi", includedFiles := "(", regularExpression := "x" }

/-- A rule whose pattern does not compile. -/
def rBadPat : Rule := { id := "r-bp", regularExpression := "(" }

def rGood : Rule := { id := "r-g", regularExpression := "x" }

def demoMap : List (String × List Range) := [("r1", [occA, occB])]

/-! ### Helper lemmas -/

/-- Every exit of the binary-search loop either reports removed = 0 or
carries the union range: the throw guard in generateOccurrencesOnChange
can never fire. -/
theorem binSearchFuel_range_of_removed (occs : List Range) (cc : Range) :
    ∀ fuel left right, 0 < (binSearchFuel occs cc fuel left right).removed →
      (binSearchFuel occs cc fuel left right).range.isSome = true := by
  intro fuel
  induction fuel with
  | zero =>
    intro l r h
    simp [binSearchFuel] at h
  | succ n ih =>
    intro l r
    simp only [binSearchFuel]
    split
    · split
      · intro h; simp at h
      · split
        · intro _; simp
        · split
          · exact ih _ _
          · split
            · intro h; simp at h
            · exact ih _ _
    · intro h; simp at h

/-- The loop in updateOccurrences and updateDecorations terminates: when
the loop condition compares the growing list against the cap, fuel
`cap + 1 - acc.length` iterations always reach an exit. -/
theorem scanLoopFuel_capped_isSome (m : Matcher) (text : List Char) (g : Bool) (cap : Nat) :
    ∀ fuel li acc, acc.length ≤ cap → cap + 1 ≤ acc.length + fuel →
      (scanLoopFuel m text g (fun n => decide (n < cap)) fuel li acc).isSome = true := by
  intro fuel
  induction fuel with
  | zero =>
    intro li acc h1 h2
    exact absurd h2 (by omega)
  | succ n ih =>
    intro li acc h1 h2
    simp only [scanLoopFuel]
    cases hstep : execStep m text g li with
    | none => simp
    | some tri =>
      obtain ⟨i, len, li2⟩ := tri
      by_cases hc : acc.length < cap
      · simp only [decide_eq_true_eq]
        rw [if_pos hc]
        exact ih li2 (acc ++ [(i, len)]) (by simp; omega) (by simp; omega)
      · simp only [decide_eq_true_eq]
        rw [if_neg hc]
        simp

/-- A zero-width match exactly at lastIndex leaves lastIndex unchanged; if
in addition the loop condition ignores the growing list (as it does in
generateOccurrencesOnChange), the loop never exits: every fuel runs out. -/
theorem scanLoopFuel_stuck_none (m : Matcher) (text : List Char) (cond : Nat → Bool)
    (li i len : Nat) (hstep : execStep m text true li = some (i, len, li))
    (hcond : ∀ k, cond k = true) :
    ∀ fuel acc, scanLoopFuel m text true cond fuel li acc = none := by
  intro fuel
  induction fuel with
  | zero => intro acc; rfl
  | succ n ih =>
    intro acc
    simp only [scanLoopFuel, hstep, hcond, if_true]
    exact ih _

/-- The guarded pattern step never throws: its event carries the rule id,
and a pattern compile failure yields the empty push. -/
theorem processRulePattern_spec (compile : String → String → Option Matcher) (doc : Document)
    (r : Rule) :
    (processRulePattern compile doc r).ruleId = r.id ∧
    (compile r.regularExpression (flagsD r) = none →
      processRulePattern compile doc r = ⟨r.id, [], 0⟩) := by
  unfold processRulePattern
  by_cases he : r.regularExpression = ""
  · simp [he]
  · rw [if_neg he]
    cases hc : compile r.regularExpression (flagsD r) with
    | none => simp
    | some m => simp

/-- The includedFiles step never throws when the filter compiles. -/
theorem processRuleIncluded_spec (compile : String → String → Option Matcher) (doc : Document)
    (r : Rule) (hi : (r.includedFiles == "" || (compile r.includedFiles "").isSome) = true) :
    ∃ ev, processRuleIncluded compile doc r = .ok ev ∧ ev.ruleId = r.id ∧
      (compile r.regularExpression (flagsD r) = none → ev = ⟨r.id, [], 0⟩) := by
  have hp := processRulePattern_spec compile doc r
  unfold processRuleIncluded
  by_cases hie : r.includedFiles = ""
  · rw [if_neg (by simpa using hie)]
    exact ⟨_, rfl, hp.1, fun h => by rw [hp.2 h]⟩
  · rcases (Bool.or_eq_true _ _).mp hi with h | h
    · exact absurd (by simpa using h) hie
    · obtain ⟨m, hm⟩ := Option.isSome_iff_exists.mp h
      rw [if_pos hie]
      simp only [hm]
      cases ht : regexTest m doc.fileName with
      | false => exact ⟨⟨r.id, [], 0⟩, by simp, rfl, fun _ => rfl⟩
      | true =>
        simp only [Bool.not_true, Bool.false_eq_true, if_false]
        exact ⟨_, rfl, hp.1, fun h => by rw [hp.2 h]⟩

/-- A rule whose filters compile is processed without an escaping throw,
its push event carries its id, and a pattern compile failure pushes the
empty list with count 0. -/
theorem processRule_ok (compile : String → String → Option Matcher) (doc : Document) (r : Rule)
    (hf : filtersCompileB compile r = true) :
    ∃ ev, processRule compile doc r = .ok ev ∧ ev.ruleId = r.id ∧
      (compile r.regularExpression (flagsD r) = none → ev = ⟨r.id, [], 0⟩) := by
  have hx := ((Bool.and_eq_true _ _).mp hf).1
  have hi := ((Bool.and_eq_true _ _).mp hf).2
  have hinc := processRuleIncluded_spec compile doc r hi
  unfold processRule
  by_cases hxe : r.excludedFiles = ""
  · rw [if_neg (by simpa using hxe)]
    exact hinc
  · rcases (Bool.or_eq_true _ _).mp hx with h | h
    · exact absurd (by simpa using h) hxe
    · obtain ⟨m, hm⟩ := Option.isSome_iff_exists.mp h
      rw [if_pos hxe]
      simp only [hm]
      cases ht : regexTest m doc.fileName with
      | false =>
        simp only [Bool.false_eq_true, if_false]
        exact hinc
      | true => exact ⟨⟨r.id, [], 0⟩, by simp, rfl, fun _ => rfl⟩

/-- updateDecorations over a list of rules whose filters all compile:
no throw escapes, every rule is pushed in order, and every rule with a
non-compiling pattern is pushed with the empty list and count 0. -/
theorem processRules_ok (compile : String → String → Option Matcher) (doc : Document)
    (rules : List Rule) (hf : ∀ r ∈ rules, filtersCompileB compile r = true) :
    (processRules compile doc rules).error = none ∧
    (processRules compile doc rules).pushes.length = rules.length ∧
    (∀ i r, rules.get? i = some r →
      ∃ ev, (processRules compile doc rules).pushes.get? i = some ev ∧ ev.ruleId = r.id ∧
        (compile r.regularExpression (flagsD r) = none → ev = ⟨r.id, [], 0⟩)) := by
  induction rules with
  | nil =>
    refine ⟨rfl, rfl, ?_⟩
    intro i r hget
    simp at hget
  | cons r rest ih =>
    obtain ⟨ev, hev, hid, hbad⟩ := processRule_ok compile doc r (hf r (by simp))
    have ihh := ih (fun x hx => hf x (by simp [hx]))
    simp only [processRules, hev]
    refine ⟨ihh.1, by simp [ihh.2.1], ?_⟩
    intro i rr hget
    cases i with
    | zero =>
      simp only [List.get?] at hget
      injection hget with hget
      subst hget
      exact ⟨ev, rfl, hid, hbad⟩
    | succ j =>
      simp only [List.get?] at hget ⊢
      exact ihh.2.2 j rr hget

/-- A rule on which processRule throws aborts the rule loop: the rules
before it keep their pushes, it and every rule after it contribute
nothing. -/
theorem processRules_throw (compile : String → String → Option Matcher) (doc : Document)
    (pre post : List Rule) (bad : Rule) (e : String)
    (hpre : ∀ r ∈ pre, filtersCompileB compile r = true)
    (hbad : processRule compile doc bad = .error e) :
    (processRules compile doc (pre ++ bad :: post)).error.isSome = true ∧
    (processRules compile doc (pre ++ bad :: post)).pushes =
      (processRules compile doc pre).pushes := by
  induction pre with
  | nil =>
    simp [processRules, hbad]
  | cons r rest ih =>
    obtain ⟨ev, hev, _, _⟩ := processRule_ok compile doc r (hpre r (by simp))
    have ihh := ih (fun x hx => hpre x (by simp [hx]))
    simp only [List.cons_append, processRules, hev]
    exact ⟨ihh.1, by simp [ihh.2]⟩

/-- Either malformed filter makes processRule throw: a non-compiling
excludedFiles filter throws at its RegExp construction; a non-compiling
includedFiles filter throws at its RegExp construction whenever the
excludedFiles check does not short-circuit the rule first (the filter is
empty, or it compiles and does not match the document name). -/
theorem processRule_filter_error (compile : String → String → Option Matcher) (doc : Document)
    (bad : Rule)
    (h : (bad.excludedFiles ≠ "" ∧ compile bad.excludedFiles "" = none) ∨
      ((bad.excludedFiles = "" ∨ ∃ m, compile bad.excludedFiles "" = some m ∧
          regexTest m doc.fileName = false) ∧
        bad.includedFiles ≠ "" ∧ compile bad.includedFiles "" = none)) :
    ∃ e, processRule compile doc bad = .error e := by
  rcases h with ⟨hne, hc⟩ | ⟨hex, hni, hci⟩
  · refine ⟨"SyntaxError: invalid regular expression (excludedFiles)", ?_⟩
    unfold processRule
    rw [if_pos hne]
    simp only [hc]
  · have hstep : processRule compile doc bad = processRuleIncluded compile doc bad := by
      unfold processRule
      by_cases hxe : bad.excludedFiles = ""
      · rw [if_neg (by simpa using hxe)]
      · rcases hex with hx | ⟨m, hm, ht⟩
        · exact absurd hx hxe
        · rw [if_pos hxe]
          simp only [hm, ht, Bool.false_eq_true, if_false]
    refine ⟨"SyntaxError: invalid regular expression (includedFiles)", ?_⟩
    rw [hstep]
    unfold processRuleIncluded
    rw [if_pos hni]
    simp only [hci]

/-- Comparing a rule with itself finds no changed decoration field. -/
theorem ruleFieldsDiffer_self (r : Rule) : ruleFieldsDiffer r r = false := by
  simp [ruleFieldsDiffer]

/-- The pairwise walk of isDecorationChangeInArray on an identical list
reports no change. -/
theorem pairDiff_self (rs : List Rule) : pairDiff rs rs = false := by
  induction rs with
  | nil => rfl
  | cons r rest ih => simp [pairDiff, ruleFieldsDiffer_self, ih]

/-- Offsets within a stored line are the line start plus the character,
provided the line exists and the character fits in it. -/
theorem offsetAtAux_add (ls : List (List Char)) :
    ∀ line ch, line < ls.length → ch ≤ ((ls.get? line).getD []).length →
      offsetAtAux ls line ch = offsetAtAux ls line 0 + ch := by
  induction ls with
  | nil =>
    intro line ch h
    simp at h
  | cons l rest ih =>
    intro line ch hlt hch
    cases line with
    | zero =>
      simp only [List.get?, Option.getD_some] at hch
      show min ch l.length = min 0 l.length + ch
      rw [Nat.min_def, Nat.min_def, if_pos hch, if_pos (Nat.zero_le _)]
      omega
    | succ k =>
      cases rest with
      | nil => simp at hlt
      | cons l2 rest2 =>
        simp only [List.get?] at hch
        have h2 := ih k ch (by simpa using hlt) hch
        show l.length + 1 + offsetAtAux (l2 :: rest2) k ch =
          l.length + 1 + offsetAtAux (l2 :: rest2) k 0 + ch
        omega

/-! ### Claim theorems -/

/-- C1: the Interval Store reached by a full rebuild of "foo\n\n\n\nfoo"
followed by incrementally applying an identity edit sequence (insert foo
on line 2, then delete it again) is [occA, occB, occC] — which differs,
range-for-range, from the store [occA, occB] produced by a full rebuild
over the final (identical) text: the incremental update keeps a stale
occurrence occC on the now-empty line 2 and appends it out of order, so
the equivalence the claim states fails on the code. -/
theorem c1_incremental_diverges_from_rebuild :
    store0 = [occA, occB] ∧
    gen1 = .ok [occA, occB, occC] ∧
    gen2 = .ok [occA, occB, occC] ∧
    updateOccurrences demoCompile text0 fooRule = some [occA, occB] ∧
    ([occA, occB, occC] : List Range) ≠ [occA, occB] := by
  refine ⟨by decide, by decide, by decide, by decide, by decide⟩

/-- C2: after the completed incremental update `gen1` (inserting foo on
line 2 of a buffer with matches on lines 0 and 4), the stored occurrence
sequence is [occA, occB, occC] with occB starting at line 4 before occC at
line 2 — it is not sorted by start offset, refuting the invariant the
claim states: removeIntersectingOccurrences returns insertIndex left + 1
instead of left when no intersection is found, so the new match is spliced
in after occB. -/
theorem c2_store_unsorted_after_completed_update :
    gen1 = .ok [occA, occB, occC] ∧ sortedNonOverlap [occA, occB, occC] = false := by
  refine ⟨by decide, by decide⟩

/-- C3: with cap 2 the rebuild of "a a a" holds 2 matches, but the
incremental update after appending a fourth a holds 4 matches — the scan
loop of generateOccurrencesOnChange compares `decorationOptions.length`
(the post-splice store size, constant during the loop) against the cap,
not the growing list of new matches, so the cap is exceeded. -/
theorem c3_cap_exceeded_after_incremental_update :
    aRule.maxOccurrences = some 2 ∧
    storeA0.length = 2 ∧
    genA = .ok [⟨⟨0, 0⟩, ⟨0, 1⟩⟩, ⟨⟨0, 2⟩, ⟨0, 3⟩⟩, ⟨⟨0, 4⟩, ⟨0, 5⟩⟩, ⟨⟨0, 6⟩, ⟨0, 7⟩⟩] := by
  refine ⟨by decide, by decide, by decide⟩

/-- C4 counterexample: an enabled-rule list containing a rule whose
pattern fails to compile (rBadPat) on which the update nevertheless throws
and processes nothing, because another rule's filter fails to compile
outside the try block — so, as stated for every such list, "no exception
escapes the update and every other rule is still processed" is false. -/
theorem c4_counterexample :
    demoCompile rBadPat.regularExpression (flagsD rBadPat) = none ∧
    (updateDecorations demoCompile false (some demoDoc) [rBadFilter, rBadPat]).error.isSome = true ∧
    (updateDecorations demoCompile false (some demoDoc) [rBadFilter, rBadPat]).pushes = [] := by
  refine ⟨rfl, by decide, by decide⟩

/-- C4 amended: when every rule's filename filters compile (and the
factory is unlocked with an active editor), a rule whose pattern string
fails to compile aborts the update for that rule only: it is pushed with
the empty range list and zero occurrences, no exception escapes
updateDecorations, and every rule in the list is pushed in order. -/
theorem c4_amended (compile : String → String → Option Matcher) (doc : Document)
    (rules : List Rule) (hf : ∀ r ∈ rules, filtersCompileB compile r = true) :
    (updateDecorations compile false (some doc) rules).error = none ∧
    (updateDecorations compile false (some doc) rules).pushes.length = rules.length ∧
    (∀ i r, rules.get? i = some r → compile r.regularExpression (flagsD r) = none →
      (updateDecorations compile false (some doc) rules).pushes.get? i = some ⟨r.id, [], 0⟩) := by
  have h := processRules_ok compile doc rules hf
  simp only [updateDecorations, Bool.false_eq_true, if_false]
  refine ⟨h.1, h.2.1, ?_⟩
  intro i r hget hbad
  obtain ⟨ev, hev, _, hb⟩ := h.2.2 i r hget
  rw [hev, hb hbad]

theorem c4_amended_witness :
    (updateDecorations demoCompile false (some demoDoc) [rBadPat, rGood]).error = none ∧
    (updateDecorations demoCompile false (some demoDoc) [rBadPat, rGood]).pushes.length = 2 ∧
    (updateDecorations demoCompile false (some demoDoc) [rBadPat, rGood]).pushes.get? 0 =
      some ⟨"r-bp", [], 0⟩ := by
  have h := c4_amended demoCompile demoDoc [rBadPat, rGood] (by decide)
  refine ⟨h.1, h.2.1, ?_⟩
  have h0 := h.2.2 0 rBadPat (by rfl) rfl
  exact h0.trans (by decide)

/-- C5 counterexample: a core operation does throw — applying decorations
against a different document than the wrapped one raises an error rather
than degrading to stale highlighting, refuting the claim as stated. -/
theorem c5_counterexample :
    applyDecorationsToEditor "a.txt" "b.txt" =
      Except.error "CANNOT APPLY DECORATIONS TO DIFFERENT DOCUMENT" := rfl

/-- C5 amended: the internal store/array desynchronization guard of
generateOccurrencesOnChange indeed never fires (removeIntersecting always
returns a union range when it removed anything), but the core does throw
on guarded inputs: applyDecorationsToEditor throws whenever the editor
document differs from the wrapped document, and addRule throws whenever
the rule id already exists in the factory. -/
theorem c5_amended :
    (∀ (occs : List Range) (cc : Range),
      0 < (removeIntersectingOccurrences occs cc).removed →
        (removeIntersectingOccurrences occs cc).range.isSome = true) ∧
    (∀ w e : String, e ≠ w →
      applyDecorationsToEditor w e = .error "CANNOT APPLY DECORATIONS TO DIFFERENT DOCUMENT") ∧
    (∀ (m : List (String × Rule)) (r : Rule), (m.lookup r.id).isSome = true →
      addRule m r = .error "Rule ID cannot be added to rule factory due to conflict.") := by
  refine ⟨?_, ?_, ?_⟩
  · intro occs cc h
    unfold removeIntersectingOccurrences at h ⊢
    by_cases hlen : occs.length = 0
    · rw [if_pos hlen] at h
      simp at h
    · rw [if_neg hlen] at h ⊢
      exact binSearchFuel_range_of_removed occs _ _ _ _ h
  · intro w e h
    simp [applyDecorationsToEditor, h]
  · intro m r h
    simp [addRule, h]

theorem c5_amended_witness :
    0 < (removeIntersectingOccurrences [occA] ⟨⟨0, 0⟩, ⟨0, 1⟩⟩).removed ∧
    (removeIntersectingOccurrences [occA] ⟨⟨0, 0⟩, ⟨0, 1⟩⟩).range.isSome = true ∧
    applyDecorationsToEditor "a.txt" "c.txt" =
      .error "CANNOT APPLY DECORATIONS TO DIFFERENT DOCUMENT" ∧
    addRule [("r-g", rGood)] rGood =
      .error "Rule ID cannot be added to rule factory due to conflict." := by
  refine ⟨by decide, c5_amended.1 [occA] ⟨⟨0, 0⟩, ⟨0, 1⟩⟩ (by decide), ?_, ?_⟩
  · exact c5_amended.2.1 "a.txt" "c.txt" (by decide)
  · exact c5_amended.2.2 [("r-g", rGood)] rGood (by decide)

/-- C6 counterexample: a rule list headed by a rule whose excludedFiles
filter is a malformed regular expression: the rule is not treated like a
pattern error — nothing is pushed for it, the exception escapes, and the
following rule is never processed. -/
theorem c6_counterexample :
    (updateDecorations demoCompile false (some demoDoc) [rBadFilter, rGood]).pushes = [] ∧
    (updateDecorations demoCompile false (some demoDoc) [rBadFilter, rGood]).error.isSome = true := by
  refine ⟨by decide, by decide⟩

/-- C6 amended: a malformed includedFiles or excludedFiles filter is not
handled like a pattern compile error: the filter RegExp is constructed
outside the try block, so the exception escapes updateDecorations; the
malformed-filter rule contributes no push at all and every rule after it
in the list is skipped, while the rules before it keep their pushes.
For a malformed excludedFiles this happens at its construction; for a
malformed includedFiles it happens whenever the excludedFiles check did
not already short-circuit the rule (it is empty, or compiles and does not
match the document name). -/
theorem c6_amended (compile : String → String → Option Matcher) (doc : Document)
    (pre post : List Rule) (bad : Rule)
    (hpre : ∀ r ∈ pre, filtersCompileB compile r = true)
    (hbadfilter : (bad.excludedFiles ≠ "" ∧ compile bad.excludedFiles "" = none) ∨
      ((bad.excludedFiles = "" ∨ ∃ m, compile bad.excludedFiles "" = some m ∧
          regexTest m doc.fileName = false) ∧
        bad.includedFiles ≠ "" ∧ compile bad.includedFiles "" = none)) :
    (updateDecorations compile false (some doc) (pre ++ bad :: post)).error.isSome = true ∧
    (updateDecorations compile false (some doc) (pre ++ bad :: post)).pushes =
      (processRules compile doc pre).pushes := by
  obtain ⟨e, he⟩ := processRule_filter_error compile doc bad hbadfilter
  have h := processRules_throw compile doc pre post bad e hpre he
  simp only [updateDecorations, Bool.false_eq_true, if_false]
  exact h

theorem c6_amended_witness :
    (updateDecorations demoCompile false (some demoDoc) [rGood, rBadFilter, rGood]).error.isSome
      = true ∧
    (updateDecorations demoCompile false (some demoDoc) [rGood, rBadFilter, rGood]).pushes =
      [⟨"r-g", [⟨⟨0, 0⟩, ⟨0, 1⟩⟩], 1⟩] ∧
    (updateDecorations demoCompile false (some demoDoc) [rGood, rBadInclude, rGood]).error.isSome
      = true ∧
    (updateDecorations demoCompile false (some demoDoc) [rGood, rBadInclude, rGood]).pushes =
      [⟨"r-g", [⟨⟨0, 0⟩, ⟨0, 1⟩⟩], 1⟩] := by
  have h1 := c6_amended demoCompile demoDoc [rGood] [rGood] rBadFilter (by decide)
    (Or.inl ⟨by decide, rfl⟩)
  have h2 := c6_amended demoCompile demoDoc [rGood] [rGood] rBadInclude (by decide)
    (Or.inr ⟨Or.inl rfl, by decide, rfl⟩)
  exact ⟨h1.1, h1.2.trans (by decide), h2.1, h2.2.trans (by decide)⟩

/-- C7 counterexample: for the edit range [(1,0),(1,1)] in "abc\nd", the
candidate span the code uses starts at offset 4 (start of line 1: the
full-line expansion with no left padding at character 0), while the
spec's span — the old range expanded by exactly one unit each side,
clamped — starts at offset 3, so the claim fails on the code. -/
theorem c7_counterexample :
    candidateSpanOffsets "abc\nd".toList ⟨⟨1, 0⟩, ⟨1, 1⟩⟩ ≠
      specCandidateSpan "abc\nd".toList ⟨⟨1, 0⟩, ⟨1, 1⟩⟩ := by decide

/-- C7 amended: the candidate span is not the one-unit offset expansion of
the edit range: the edit range is first expanded to whole lines, then the
start stays at character 0 of its first line (the one-character left
padding never applies there and never crosses a line boundary) and the end
is placed at character 1 of the line after the last line with no clamping
to the buffer bounds; in offset space the span runs from the start of the
edit's first line to one past the start of the line after its last line
(when that line exists and is nonempty). -/
theorem c7_amended (t : List Char) (r : Range)
    (hline : r.start.line ≤ r.endPos.line)
    (hin : r.endPos.line + 1 < (splitLines t).length)
    (hlen : 1 ≤ lineLen t (r.endPos.line + 1)) :
    (candidateSpan r).start = ⟨r.start.line, 0⟩ ∧
    (candidateSpan r).endPos = ⟨r.endPos.line + 1, 1⟩ ∧
    candidateSpanOffsets t r =
      (offsetAt t ⟨r.start.line, 0⟩, offsetAt t ⟨r.endPos.line + 1, 0⟩ + 1) := by
  have hfull : getFullLineRange r = ⟨⟨r.start.line, 0⟩, ⟨r.endPos.line + 1, 0⟩⟩ := by
    unfold getFullLineRange Range.mk'
    rw [if_pos]
    simp [Pos.isBeforeOrEqual]
    omega
  have hcand : candidateSpan r = ⟨⟨r.start.line, 0⟩, ⟨r.endPos.line + 1, 1⟩⟩ := by
    unfold candidateSpan padCandidate
    rw [hfull]
    simp only [gt_iff_lt, Nat.lt_irrefl, if_false]
    unfold Range.mk'
    rw [if_pos]
    simp [Pos.isBeforeOrEqual]
    omega
  refine ⟨by rw [hcand], by rw [hcand], ?_⟩
  unfold candidateSpanOffsets
  rw [hcand]
  have hoff : offsetAt t ⟨r.endPos.line + 1, 1⟩ = offsetAt t ⟨r.endPos.line + 1, 0⟩ + 1 := by
    unfold offsetAt
    exact offsetAtAux_add (splitLines t) (r.endPos.line + 1) 1 hin hlen
  rw [hoff]

theorem c7_amended_witness :
    candidateSpanOffsets "abc\nd\ne".toList ⟨⟨0, 1⟩, ⟨0, 2⟩⟩ = (0, 5) ∧
    (candidateSpan ⟨⟨0, 1⟩, ⟨0, 2⟩⟩).start = ⟨0, 0⟩ := by
  have h := c7_amended "abc\nd\ne".toList ⟨⟨0, 1⟩, ⟨0, 2⟩⟩ (by decide) (by decide) (by decide)
  exact ⟨h.2.2.trans (by decide), h.1⟩

/-- C8: delivering the same enabled-rule list twice in a row causes no
decoration clearing, no rescan and no occurrence update on the second
delivery: after the first delivery stores the list, the change detection
compares every id and every decoration-relevant field of the identical
list and reports no change, so the update branch is not taken. -/
theorem c8_cosmetic_idempotent (old : Option (List Rule)) (rs : List Rule) :
    (handleEnabledRulesEvent (handleEnabledRulesEvent old rs).2 rs).1 = false := by
  simp [handleEnabledRulesEvent, isDecorationChangeInArray, pairDiff_self]

/-- C9: the jump lookup returns the stored Match Range at the requested
ordinal when the rule id is known and the ordinal is in bounds, and
returns none — no action, no error — when the rule id is unknown or the
ordinal is out of bounds of the rule's current list. -/
theorem c9_jump_lookup (m : List (String × List Range)) (rid : String) (idx : Nat) :
    (∀ rs, m.lookup rid = some rs → ∀ h : idx < rs.length,
      jumpToLine m rid idx = some (rs.get ⟨idx, h⟩)) ∧
    (m.lookup rid = none → jumpToLine m rid idx = none) ∧
    (∀ rs, m.lookup rid = some rs → rs.length ≤ idx → jumpToLine m rid idx = none) := by
  refine ⟨?_, ?_, ?_⟩
  · intro rs hrs h
    simp [jumpToLine, hrs, List.get?_eq_get h]
  · intro h
    simp [jumpToLine, h]
  · intro rs hrs h
    simp only [jumpToLine, hrs]
    exact List.get?_eq_none.mpr h

theorem c9_jump_lookup_witness :
    jumpToLine demoMap "r1" 1 = some occB ∧
    jumpToLine demoMap "zzz" 0 = none ∧
    jumpToLine demoMap "r1" 5 = none := by
  refine ⟨?_, ?_, ?_⟩
  · have h := (c9_jump_lookup demoMap "r1" 1).1 [occA, occB] (by decide) (by decide)
    exact h.trans (by decide)
  · exact (c9_jump_lookup demoMap "zzz" 0).2.1 (by decide)
  · exact (c9_jump_lookup demoMap "r1" 5).2.2 [occA, occB] (by decide) (by decide)

/-- C10 counterexample: the incremental scan loop's condition does not
bound the match list length by the cap — at `genA` it appends 4 matches
against a cap of 2 — and with the empty (zero-width everywhere) pattern
the loop is still running after 50 iterations. -/
theorem c10_counterexample :
    aRule.maxOccurrences.getD 1000 = 2 ∧
    genA = .ok [⟨⟨0, 0⟩, ⟨0, 1⟩⟩, ⟨⟨0, 2⟩, ⟨0, 3⟩⟩, ⟨⟨0, 4⟩, ⟨0, 5⟩⟩, ⟨⟨0, 6⟩, ⟨0, 7⟩⟩] ∧
    generateOccurrencesOnChange demoCompile 50 "ab".toList emptyPatRule [] ⟨⟨0, 0⟩, ⟨0, 0⟩⟩ =
      .fuelOut := by
  refine ⟨by decide, by decide, by decide⟩

/-- C10 amended: the full-rebuild scan loops (updateOccurrences and
updateDecorations), whose condition checks the growing decorations list,
terminate within cap + 1 iterations for every pattern, text and cap; the
incremental loop of generateOccurrencesOnChange checks the constant
post-splice store size instead, so with a pattern that matches the empty
string at the stuck cursor its loop never exits: for every fuel it is
still running. -/
theorem c10_amended :
    (∀ (m : Matcher) (text : List Char) (g : Bool) (cap fuel li : Nat) (acc : List (Nat × Nat)),
      acc.length ≤ cap → cap + 1 ≤ acc.length + fuel →
      (scanLoopFuel m text g (fun n => decide (n < cap)) fuel li acc).isSome = true) ∧
    (∀ fuel : Nat, ∀ acc : List (Nat × Nat),
      scanLoopFuel (litMatch []) "ab".toList true (fun _ => decide ((0 : Nat) < 1000)) fuel 0 acc
        = none) ∧
    (∀ fuel : Nat,
      generateOccurrencesOnChange demoCompile fuel "ab".toList emptyPatRule [] ⟨⟨0, 0⟩, ⟨0, 0⟩⟩ =
        .fuelOut) := by
  have hstuck := scanLoopFuel_stuck_none (litMatch []) "ab".toList
    (fun _ => decide ((0 : Nat) < 1000)) 0 0 0 (by decide) (fun k => rfl)
  refine ⟨fun m text g cap => scanLoopFuel_capped_isSome m text g cap, hstuck, ?_⟩
  intro fuel
  show (match scanLoopFuel (litMatch []) "ab".toList true (fun _ => decide ((0 : Nat) < 1000))
          fuel 0 [] with
        | none => GenResult.fuelOut
        | some pairs =>
          GenResult.ok ((pairs.map fun p =>
              Range.mk' (positionAt "ab".toList (0 + p.1))
                (positionAt "ab".toList (0 + p.1 + p.2))).enum.foldl
            (fun l pr => jsInsertAt l (1 + pr.1) pr.2) [])) = GenResult.fuelOut
  rw [hstuck fuel []]

theorem c10_amended_witness :
    0 ≤ 2 ∧ 2 + 1 ≤ 0 + 3 ∧
    (scanLoopFuel (litMatch "a".toList) "aaa".toList true (fun n => decide (n < 2)) 3 0
      []).isSome = true := by
  refine ⟨by decide, by decide, ?_⟩
  exact c10_amended.1 (litMatch "a".toList) "aaa".toList true 2 3 0 [] (by decide) (by decide)

end Grepc
